import Mathlib

set_option autoImplicit false

/-!
Verification of the taxonomy fetch-and-cache script (src/taxonomy.py).

The script is embedded shallowly: pure string manipulation is translated
directly; the network is modelled by oracles (one `Attempt` outcome per retry
attempt); stateful pieces (the retry loop, the batch loop, the JSON cache)
become explicit state passing, with the list of issued GETs and sleeps kept as
an event trace so that temporal and ordering statements can be made.
-/

namespace Taxonomy

/-! ## Name normalizer (taxonomy.py, `preprocess_name`, lines 195-214) -/

/-- Characters of PYTHON `re.sub('_sp|_adult|_larva', '', dir_name)`: one
left-to-right scan; at each position the regex alternatives are tried in order
(at most one can match, since the three literals diverge at their second
character); on a match the occurrence is dropped and the scan resumes after it.
-/
def stripNoise : List Char → List Char
  | '_' :: 's' :: 'p' :: rest => stripNoise rest
  | '_' :: 'a' :: 'd' :: 'u' :: 'l' :: 't' :: rest => stripNoise rest
  | '_' :: 'l' :: 'a' :: 'r' :: 'v' :: 'a' :: rest => stripNoise rest
  | c :: rest => c :: stripNoise rest
  | [] => []

/-- PYTHON `s.split('_')`: splitting on a single separator character, so that
`"".split('_') == [""]` and `"_".split('_') == ["", ""]`. -/
def splitUnderscore : List Char → List (List Char)
  | [] => [[]]
  | '_' :: rest => [] :: splitUnderscore rest
  | c :: rest =>
    match splitUnderscore rest with
    | [] => [[c]]
    | p :: ps => (c :: p) :: ps

/-- `preprocess_name` (lines 195-214): strip the three noise literals, split on
underscore, and if more than one part remains join the first and last with `+`
(PYTHON `'+'.join([parts[0], parts[-1]])`), else return the single part.
`split` always returns a non-empty list, so the `parts[0]` / `parts[-1]`
accesses cannot fail; `headD` / `getLastD` mirror that. -/
def preprocess_name (dir_name : String) : String :=
  let parts := (splitUnderscore (stripNoise dir_name.toList)).map String.mk
  if parts.length > 1 then (parts.headD "") ++ "+" ++ (parts.getLastD "")
  else parts.headD ""

/-- C3: the normalizer strips `_sp`/`_adult`/`_larva` anywhere in the string
(case-sensitively), splits on `_`, and joins the first and last remaining parts
with `+` when more than one part remains, otherwise returns the single part;
in particular the five listed evaluations hold, and a mid-string occurrence
(`Asellus_sp_aquaticus`) is stripped as well. -/
theorem preprocess_name_examples :
    preprocess_name "Asellus_aquaticus" = "Asellus+aquaticus"
    ∧ preprocess_name "Chelifera" = "Chelifera"
    ∧ preprocess_name "Ephemerella_aroni_aurivillii" = "Ephemerella+aurivillii"
    ∧ preprocess_name "Foo_sp" = "Foo"
    ∧ preprocess_name "Foo_adult_larva" = "Foo"
    ∧ preprocess_name "Asellus_sp_aquaticus" = "Asellus+aquaticus" := by
  decide

/-- C10: the normalizer is total (it is a plain Lean function, so it can never
raise), and it returns the empty string whenever stripping the noise literals
consumes the whole input — in particular on `""`, `"_sp"` and `"_adult"`; such
an output would be passed on as an empty remote query term. -/
theorem preprocess_name_empty_outputs :
    (∀ s : String, stripNoise s.toList = [] → preprocess_name s = "")
    ∧ preprocess_name "" = ""
    ∧ preprocess_name "_sp" = ""
    ∧ preprocess_name "_adult" = "" := by
  refine ⟨?_, by decide, by decide, by decide⟩
  intro s h
  have h' : stripNoise s.data = [] := h
  simp [preprocess_name, h', splitUnderscore]

/-- Witness for C10's universally quantified part at the concrete input
`"_larva"`, whose characters are entirely consumed by the stripping pass. -/
theorem preprocess_name_empty_outputs_witness :
    stripNoise "_larva".toList = [] ∧ preprocess_name "_larva" = "" :=
  ⟨by decide, preprocess_name_empty_outputs.1 "_larva" (by decide)⟩

/-! ## Transport layer and retry wrapper (taxonomy.py, `make_req`, lines 23-51)

The `requests` exception taxonomy that matters here: `raise_for_status()`
raises `requests.HTTPError` on a non-2xx status; connectivity failures raise
`requests.ConnectionError` and timeouts raise `requests.Timeout`, neither of
which is a subclass of `requests.HTTPError`.  The script's semantic failures
are `ValueError`s. -/

/-- The exceptions the script can raise or propagate. -/
inductive PyExc where
  | httpError
  | connError
  | valueErrorAmbiguous (n : Nat)
  | valueErrorEmpty
  | valueErrorMalformed (s : String)
deriving DecidableEq, Repr

/-- Which exceptions PYTHON `except ValueError` catches. -/
def isValueError : PyExc → Bool
  | .valueErrorAmbiguous _ => true
  | .valueErrorEmpty => true
  | .valueErrorMalformed _ => true
  | .httpError => false
  | .connError => false

/-- Observable actions: an HTTP GET being issued (with the distinguishing
query-string entry: the search term for esearch, the taxon id for efetch), and
a `time.sleep` of a whole number of seconds. -/
inductive Event where
  | get (url : String) (query : String)
  | sleep (secs : Nat)
deriving DecidableEq, Repr

/-- Outcome of one GET attempt, as decided by the network: a successful 2xx
response carrying an already-decoded payload, a non-2xx status
(`raise_for_status` raises `requests.HTTPError`), or a connectivity/timeout
failure (`requests.ConnectionError` / `requests.Timeout`). -/
inductive Attempt (α : Type) where
  | success (v : α)
  | httpError
  | connError
deriving DecidableEq, Repr

instance {ε α : Type} [DecidableEq ε] [DecidableEq α] : DecidableEq (Except ε α) := fun x y =>
  match x, y with
  | .ok a, .ok b => decidable_of_iff (a = b) (by simp)
  | .error a, .error b => decidable_of_iff (a = b) (by simp)
  | .ok _, .error _ => .isFalse (by simp)
  | .error _, .ok _ => .isFalse (by simp)

def BASE_URL : String := "https://eutils.ncbi.nlm.nih.gov/entrez/eutils/"

/-- Defined at line 18 of the source and never referenced again. -/
def SLEEP_INTERVAL : Rat := 1 / 2

/-- Defined at line 19 of the source and never referenced again. -/
def RETURN_RANKS : List String := ["order", "family", "genus", "species"]

/-- The body of `make_req`'s PYTHON `for i in range(max_attempts + 1)` loop,
recursing over the remaining loop indices. Each iteration issues a GET; on
success the response payload is returned; a `ConnectionError`/`Timeout` is not
caught by the `except requests.HTTPError` handler and propagates at once; an
`HTTPError` is re-raised when `i == max_attempts`, otherwise the loop sleeps
one second and retries.  The `[]` case is the dead `raise requests.HTTPError`
after the loop (line 51). -/
def make_req_go {α : Type} (net : Nat → Attempt α) (url query : String)
    (max_attempts : Nat) : List Nat → List Event × Except PyExc α
  | [] => ([], .error .httpError)
  | i :: rest =>
    match net i with
    | .success v => ([.get url query], .ok v)
    | .connError => ([.get url query], .error .connError)
    | .httpError =>
      if i = max_attempts then ([.get url query], .error .httpError)
      else
        let r := make_req_go net url query max_attempts rest
        (.get url query :: .sleep 1 :: r.1, r.2)

/-- `make_req` (lines 23-51) at its default arguments (`max_attempts = 3`, so
PYTHON `range(4)`; the per-attempt `timeout=10` needs no separate model since a
timeout is one of the `connError` outcomes). Every call site in the script uses
the defaults. -/
def make_req {α : Type} (net : Nat → Attempt α) (url query : String) :
    List Event × Except PyExc α :=
  make_req_go net url query 3 [0, 1, 2, 3]

theorem make_req_go_success {α : Type} {net : Nat → Attempt α} {url query : String}
    {max_attempts i : Nat} {rest : List Nat} {v : α} (h : net i = .success v) :
    make_req_go net url query max_attempts (i :: rest) = ([.get url query], .ok v) := by
  simp [make_req_go, h]

theorem make_req_go_conn {α : Type} {net : Nat → Attempt α} {url query : String}
    {max_attempts i : Nat} {rest : List Nat} (h : net i = .connError) :
    make_req_go net url query max_attempts (i :: rest)
      = ([.get url query], .error .connError) := by
  simp [make_req_go, h]

theorem make_req_go_http_last {α : Type} {net : Nat → Attempt α} {url query : String}
    {max_attempts i : Nat} {rest : List Nat} (h : net i = .httpError)
    (hi : i = max_attempts) :
    make_req_go net url query max_attempts (i :: rest)
      = ([.get url query], .error .httpError) := by
  subst hi
  simp [make_req_go, h]

theorem make_req_go_http {α : Type} {net : Nat → Attempt α} {url query : String}
    {max_attempts i : Nat} {rest : List Nat} (h : net i = .httpError)
    (hi : i ≠ max_attempts) :
    make_req_go net url query max_attempts (i :: rest)
      = (Event.get url query :: Event.sleep 1
          :: (make_req_go net url query max_attempts rest).1,
         (make_req_go net url query max_attempts rest).2) := by
  simp [make_req_go, h, hi]

/-- C2 counterexample: a connectivity failure on the first attempt is not
retried, even though the second attempt would have succeeded — it escapes the
`except requests.HTTPError` handler immediately, with a single GET issued and
no pause, and the caller sees the error.  This falsifies the claim that any
transport-level failure (connectivity or timeout included) is retried and that
a success within the 4-try budget is always returned. -/
theorem make_req_conn_not_retried_cex :
    make_req (fun i => if i = 0 then Attempt.connError else Attempt.success "ok") "u" "q"
      = ([Event.get "u" "q"], Except.error PyExc.connError) := by
  decide

/-- C2 amended: under `make_req`'s default budget of 4 total tries, only
HTTP-status failures (non-2xx, raised by `raise_for_status`) are retried after
a fixed 1-second pause; a success on any try within the budget is returned
with no error surfaced; four HTTP-status failures re-raise the final
`HTTPError` after 4 GETs with the three 1-second pauses between them; a
connectivity/timeout failure is not caught and propagates on first occurrence
after a single GET. -/
theorem make_req_retry_policy {α : Type} (net : Nat → Attempt α) (url query : String) :
    (∀ k v, k ≤ 3 → (∀ j, j < k → net j = .httpError) → net k = .success v →
      (make_req net url query).2 = .ok v)
    ∧ ((∀ i, i ≤ 3 → net i = .httpError) →
      make_req net url query
        = ([Event.get url query, Event.sleep 1, Event.get url query, Event.sleep 1,
            Event.get url query, Event.sleep 1, Event.get url query],
           Except.error PyExc.httpError))
    ∧ (net 0 = .connError →
      make_req net url query = ([Event.get url query], Except.error PyExc.connError)) := by
  refine ⟨?_, ?_, ?_⟩
  · intro k v hk hprev hsucc
    interval_cases k
    · rw [make_req, make_req_go_success hsucc]
    · rw [make_req, make_req_go_http (hprev 0 (by omega)) (by omega),
        make_req_go_success hsucc]
    · rw [make_req, make_req_go_http (hprev 0 (by omega)) (by omega),
        make_req_go_http (hprev 1 (by omega)) (by omega),
        make_req_go_success hsucc]
    · rw [make_req, make_req_go_http (hprev 0 (by omega)) (by omega),
        make_req_go_http (hprev 1 (by omega)) (by omega),
        make_req_go_http (hprev 2 (by omega)) (by omega),
        make_req_go_success hsucc]
  · intro h
    rw [make_req, make_req_go_http (h 0 (by omega)) (by omega),
      make_req_go_http (h 1 (by omega)) (by omega),
      make_req_go_http (h 2 (by omega)) (by omega),
      make_req_go_http_last (h 3 (by omega)) rfl]
  · intro h
    rw [make_req, make_req_go_conn h]

/-- Witness for C2's amended statement: a network that answers every attempt
with a non-2xx status makes `make_req` issue exactly 4 GETs separated by three
1-second pauses and re-raise the final `HTTPError`. -/
theorem make_req_retry_policy_witness :
    make_req (fun _ => (Attempt.httpError : Attempt String)) "u" "q"
      = ([Event.get "u" "q", Event.sleep 1, Event.get "u" "q", Event.sleep 1,
          Event.get "u" "q", Event.sleep 1, Event.get "u" "q"],
         Except.error PyExc.httpError) :=
  (make_req_retry_policy (fun _ => (Attempt.httpError : Attempt String)) "u" "q").2.1
    (fun _ _ => rfl)

/-! ## Remote payloads and the two endpoints

The transport oracles deliver already-decoded payloads: the esearch response is
reduced to its `esearchresult.idlist` (the only part the script reads), and the
efetch response to the element tree `ET.fromstring` yields (the only part the
script reads). -/

/-- Digit-string to number, PYTHON `int(s)` on an all-digit string. -/
def natOfDigits (cs : List Char) : Nat :=
  cs.foldl (fun n c => 10 * n + (c.toNat - 48)) 0

/-- PYTHON `s.isdigit()` for the decimal-numeral case the script relies on:
false on the empty string, true exactly when every character is a decimal
digit. -/
def pyIsDigit (s : String) : Bool :=
  !s.toList.isEmpty && s.toList.all Char.isDigit

/-- PYTHON `int(s)` on the strings the script feeds it: an optional leading
minus sign followed by a non-empty run of decimal digits; anything else raises
`ValueError`, modelled as `none`. -/
def pyIntOfText (s : String) : Option Int :=
  match s.toList with
  | '-' :: rest =>
    if !rest.isEmpty && rest.all Char.isDigit then some (-(Int.ofNat (natOfDigits rest)))
    else none
  | cs =>
    if !cs.isEmpty && cs.all Char.isDigit then some (Int.ofNat (natOfDigits cs))
    else none

/-- The `Taxon` XML element as the script reads it: the text of its `Rank`,
`ScientificName` and `TaxId` children. -/
structure TaxonElement where
  rankText : String
  scientificNameText : String
  taxIdText : String
deriving DecidableEq, Repr

/-- The efetch document as the script reads it: the top-level `Taxon` element
plus PYTHON `root_taxon.find('LineageEx').findall('Taxon')`, the ordered list
of ancestor `Taxon` elements. -/
structure TaxonRoot where
  taxon : TaxonElement
  lineageEx : List TaxonElement
deriving DecidableEq, Repr

/-- One lineage record: `{'sci_name': ..., 'taxon_id': int(...)}`. -/
structure LineageEntry where
  sci_name : String
  taxon_id : Int
deriving DecidableEq, Repr

/-- The value cached per directory: the organism's own rank, scientific name
and taxon id plus its lineage grouped by rank (a `defaultdict(list)`, modelled
as an association list in key-first-insertion order with per-key append
order). -/
structure TaxonInfo where
  rank : String
  sci_name : String
  taxon_id : Int
  lineage : List (String × List LineageEntry)
deriving DecidableEq, Repr

/-- The network, one oracle per endpoint: for each search term / taxon id and
each attempt index, the outcome of that GET. -/
structure Remote where
  search : String → Nat → Attempt (List String)
  fetch : Int → Nat → Attempt TaxonRoot

/-- `esearch_req` (lines 54-76): a `make_req` GET against the esearch endpoint
with the species name as the `term` parameter (the rest of the payload is
constant and carried by the URL label). -/
def esearch_req (remote : Remote) (species : String) :
    List Event × Except PyExc (List String) :=
  make_req (remote.search species) (BASE_URL ++ "esearch.fcgi") species

/-- `efetch_req` (lines 78-97): a `make_req` GET against the efetch endpoint
with the taxon id as the `id` parameter. -/
def efetch_req (remote : Remote) (taxid : Int) :
    List Event × Except PyExc TaxonRoot :=
  make_req (remote.fetch taxid) (BASE_URL ++ "efetch.fcgi") (toString taxid)

/-! ## `species_to_id` (lines 100-118) -/

/-- The checks of lines 111-118 on the decoded
`req.json()['esearchresult']['idlist']`: more than one id raises `ValueError`
(ambiguous), an empty list raises `ValueError` (not found), a single id that is
not all decimal digits raises `ValueError` (malformed), and otherwise
`int(id_list[0])` is returned. -/
def check_id_list (id_list : List String) : Except PyExc Int :=
  if id_list.length > 1 then .error (.valueErrorAmbiguous id_list.length)
  else
    match id_list with
    | [] => .error .valueErrorEmpty
    | s :: _ =>
      if pyIsDigit s then .ok (Int.ofNat (natOfDigits s.toList))
      else .error (.valueErrorMalformed s)

/-- `species_to_id` (lines 100-118): issue the esearch request (any transport
exception propagates) and validate the id list.  The `verbose` printing is not
modelled. -/
def species_to_id (remote : Remote) (species : String) :
    List Event × Except PyExc Int :=
  match esearch_req remote species with
  | (tr, .error e) => (tr, .error e)
  | (tr, .ok id_list) => (tr, check_id_list id_list)

/-- A remote whose search succeeds on the first attempt with a fixed id list;
the fetch side is irrelevant for `species_to_id`. -/
def oneShotRemote (ids : List String) : Remote :=
  ⟨fun _ _ => .success ids, fun _ _ => .httpError⟩

/-- C4: with the search response delivered, `species_to_id` returns the single
identifier as an integer exactly when the id list has exactly one entry and it
is a decimal numeral; an empty list fails (not found), a longer list fails
(ambiguous), and a single non-numeral entry fails (malformed) — each as a
`ValueError`. -/
theorem species_to_id_contract (ids : List String) (name : String) :
    ((species_to_id (oneShotRemote ids) name).2
        = .ok (Int.ofNat (natOfDigits (ids.headD "").toList))
      ↔ ids.length = 1 ∧ pyIsDigit (ids.headD "") = true)
    ∧ (ids = [] →
      (species_to_id (oneShotRemote ids) name).2 = .error .valueErrorEmpty)
    ∧ (1 < ids.length →
      (species_to_id (oneShotRemote ids) name).2
        = .error (.valueErrorAmbiguous ids.length))
    ∧ (∀ s, ids = [s] → pyIsDigit s = false →
      (species_to_id (oneShotRemote ids) name).2 = .error (.valueErrorMalformed s)) := by
  have hred : (species_to_id (oneShotRemote ids) name).2 = check_id_list ids := rfl
  rw [hred]
  refine ⟨?_, ?_, ?_, ?_⟩
  · constructor
    · intro h
      match ids with
      | [] => simp [check_id_list] at h
      | [s] =>
        by_cases hd : pyIsDigit s
        · simp [hd]
        · simp [check_id_list, hd] at h
      | a :: b :: rest => simp [check_id_list] at h
    · rintro ⟨h1, h2⟩
      match ids with
      | [s] => simp [check_id_list, List.headD] at h2 ⊢; simp [h2]
  · rintro rfl; rfl
  · intro h
    match ids with
    | a :: b :: rest => simp [check_id_list]
  · rintro s rfl hd
    simp [check_id_list, hd]

/-- Witness for C4 at a concrete successful lookup: the single all-digit id
`"92243"` is returned as the integer `92243`. -/
theorem species_to_id_contract_witness :
    (species_to_id (oneShotRemote ["92243"]) "Asellus+aquaticus").2
      = .ok (Int.ofNat (natOfDigits "92243".toList)) :=
  (species_to_id_contract ["92243"] "Asellus+aquaticus").1.mpr (by decide)

/-! ## Record parsing (`etree_to_dict` lines 131-165, `parse_taxon_element`
lines 167-181) -/

/-- `parse_taxon_element` (lines 167-181): read the element's rank text and
build `{'sci_name': ..., 'taxon_id': int(...)}`; a non-numeral `TaxId` text
makes `int` raise (`none` here). -/
def parse_taxon_element (taxon : TaxonElement) : Option (String × LineageEntry) :=
  match pyIntOfText taxon.taxIdText with
  | none => none
  | some n => some (taxon.rankText, ⟨taxon.scientificNameText, n⟩)

/-- PYTHON `lineage[rank].append(info)` on a `defaultdict(list)`: append to the
existing key's list, or add the key at the end with a singleton list. -/
def dictAppend {α : Type} : List (String × List α) → String → α → List (String × List α)
  | [], k, v => [(k, [v])]
  | (a, vs) :: rest, k, v =>
    if a = k then (a, vs ++ [v]) :: rest else (a, vs) :: dictAppend rest k v

/-- Reading `lineage[rank]` back from the grouped structure; a missing rank is
the `defaultdict`'s empty list. -/
def lookupRank {α : Type} : List (String × List α) → String → List α
  | [], _ => []
  | (a, vs) :: rest, r => if a = r then vs else lookupRank rest r

/-- The `for taxon in taxa` loop of lines 160-162, folding
`lineage[rank].append(info)` over the ancestor elements in document order;
`none` if some `int(...)` raises. -/
def buildLineage : List TaxonElement → List (String × List LineageEntry) →
    Option (List (String × List LineageEntry))
  | [], acc => some acc
  | t :: rest, acc =>
    match parse_taxon_element t with
    | none => none
    | some (r, info) => buildLineage rest (dictAppend acc r info)

/-- `etree_to_dict` (lines 131-165): take rank/name/id from the top-level
`Taxon` element, then group the `LineageEx` ancestors by rank. -/
def etree_to_dict (root : TaxonRoot) : Option TaxonInfo :=
  match parse_taxon_element root.taxon with
  | none => none
  | some (rank, info) =>
    match buildLineage root.lineageEx [] with
    | none => none
    | some lin => some ⟨rank, info.sci_name, info.taxon_id, lin⟩

/-- The lineage record `parse_taxon_element` produces for an element whose
`TaxId` text parses. -/
def lineageEntryOf (t : TaxonElement) : LineageEntry :=
  ⟨t.scientificNameText, (pyIntOfText t.taxIdText).getD 0⟩

theorem lookupRank_dictAppend {α : Type} (d : List (String × List α)) (k r : String) (v : α) :
    lookupRank (dictAppend d k v) r
      = if k = r then lookupRank d r ++ [v] else lookupRank d r := by
  induction d with
  | nil =>
    by_cases h : k = r <;> simp [dictAppend, lookupRank, h]
  | cons hd tl ih =>
    obtain ⟨a, vs⟩ := hd
    by_cases hak : a = k
    · subst hak
      by_cases har : a = r <;> simp [dictAppend, lookupRank, har]
    · by_cases har : a = r
      · subst har
        have hka : ¬k = a := fun h => hak h.symm
        simp [dictAppend, lookupRank, hak, hka]
      · simp [dictAppend, lookupRank, hak, har, ih]

theorem buildLineage_spec (l : List TaxonElement) :
    ∀ acc, (∀ t ∈ l, (pyIntOfText t.taxIdText).isSome = true) →
    ∃ out, buildLineage l acc = some out ∧
      ∀ r, lookupRank out r
        = lookupRank acc r ++ (l.filter (fun t => t.rankText == r)).map lineageEntryOf := by
  induction l with
  | nil => intro acc _; exact ⟨acc, rfl, fun r => by simp⟩
  | cons t rest ih =>
    intro acc h
    obtain ⟨n, hn⟩ := Option.isSome_iff_exists.mp (h t (by simp))
    have hparse : parse_taxon_element t = some (t.rankText, ⟨t.scientificNameText, n⟩) := by
      simp [parse_taxon_element, hn]
    have hentry : lineageEntryOf t = ⟨t.scientificNameText, n⟩ := by
      simp [lineageEntryOf, hn]
    obtain ⟨out, hout, hlook⟩ :=
      ih (dictAppend acc t.rankText ⟨t.scientificNameText, n⟩)
        (fun u hu => h u (by simp [hu]))
    refine ⟨out, ?_, ?_⟩
    · simp [buildLineage, hparse, hout]
    · intro r
      rw [hlook r, lookupRank_dictAppend]
      by_cases hr : t.rankText = r
      · simp [List.filter_cons, hr, hentry]
      · simp [List.filter_cons, hr]

/-- C5: for a well-formed fetched record (every `TaxId` text parses as an
integer), the parser takes the organism's own rank, scientific name and taxon
id from the top-level `Taxon` element, and groups the `LineageEx` ancestors by
rank preserving every occurrence in document order: the list stored under any
rank is exactly the records of the ancestors carrying that rank, in order —
nothing is dropped, deduplicated, or filtered against a wanted-rank set. -/
theorem etree_to_dict_grouping (root : TaxonRoot)
    (hroot : (pyIntOfText root.taxon.taxIdText).isSome = true)
    (hlin : ∀ t ∈ root.lineageEx, (pyIntOfText t.taxIdText).isSome = true) :
    ∃ ti, etree_to_dict root = some ti
      ∧ ti.rank = root.taxon.rankText
      ∧ ti.sci_name = root.taxon.scientificNameText
      ∧ some ti.taxon_id = pyIntOfText root.taxon.taxIdText
      ∧ ∀ r, lookupRank ti.lineage r
          = (root.lineageEx.filter (fun t => t.rankText == r)).map lineageEntryOf := by
  obtain ⟨n, hn⟩ := Option.isSome_iff_exists.mp hroot
  have hparse : parse_taxon_element root.taxon
      = some (root.taxon.rankText, ⟨root.taxon.scientificNameText, n⟩) := by
    simp [parse_taxon_element, hn]
  obtain ⟨out, hout, hlook⟩ := buildLineage_spec root.lineageEx [] hlin
  refine ⟨⟨root.taxon.rankText, root.taxon.scientificNameText, n, out⟩, ?_, rfl, rfl, ?_, ?_⟩
  · simp [etree_to_dict, hparse, hout]
  · exact hn.symm
  · intro r
    simpa [lookupRank] using hlook r

/-- A concrete efetch document with a duplicated `clade` rank in the
lineage. -/
def sampleRoot : TaxonRoot :=
  ⟨⟨"species", "Asellus aquaticus", "92243"⟩,
   [⟨"genus", "Asellus", "92242"⟩,
    ⟨"clade", "Heterochelida", "1"⟩,
    ⟨"clade", "Asellota", "2"⟩]⟩

/-- Witness for C5 at `sampleRoot`: parsing succeeds and the duplicated
`clade` rank keeps both occurrences, in document order. -/
theorem etree_to_dict_grouping_witness :
    ∃ ti, etree_to_dict sampleRoot = some ti
      ∧ lookupRank ti.lineage "clade"
        = [⟨"Heterochelida", 1⟩, ⟨"Asellota", 2⟩] := by
  obtain ⟨ti, h1, _, _, _, h5⟩ := etree_to_dict_grouping sampleRoot (by decide) (by decide)
  refine ⟨ti, h1, ?_⟩
  rw [h5 "clade"]
  decide

/-! ## Composite resolution (`species_to_dict`, lines 183-193) -/

/-- `etree_from_id` (lines 120-129): the efetch request followed by
`ET.fromstring`; the oracle already carries the parsed element tree. -/
def etree_from_id (remote : Remote) (taxid : Int) :
    List Event × Except PyExc TaxonRoot :=
  efetch_req remote taxid

/-- `species_to_dict` (lines 183-193): `species_to_id`, then — with no
intervening statement — `etree_from_id`, then `etree_to_dict`.  A failing
`int(...)` during parsing raises `ValueError`. -/
def species_to_dict (remote : Remote) (species : String) :
    List Event × Except PyExc TaxonInfo :=
  match species_to_id remote species with
  | (tr1, .error e) => (tr1, .error e)
  | (tr1, .ok taxid) =>
    match etree_from_id remote taxid with
    | (tr2, .error e) => (tr1 ++ tr2, .error e)
    | (tr2, .ok root) =>
      match etree_to_dict root with
      | none => (tr1 ++ tr2, .error (.valueErrorMalformed "TaxId"))
      | some ti => (tr1 ++ tr2, .ok ti)

/-- A remote that answers the lookup with the single id `"92243"` and the
fetch with `sampleRoot`, each on the first attempt. -/
def goodRemote : Remote :=
  ⟨fun _ _ => .success ["92243"], fun _ _ => .success sampleRoot⟩

/-- C6 counterexample: in a failure-free execution the trace of
`species_to_dict` is exactly the lookup GET followed immediately by the fetch
GET — no sleep of any duration occurs between them (`SLEEP_INTERVAL` is
defined at line 18 but never used).  This falsifies the claim that every
execution sleeps between the two calls. -/
theorem species_to_dict_no_sleep_cex :
    (species_to_dict goodRemote "Asellus+aquaticus").1
      = [Event.get (BASE_URL ++ "esearch.fcgi") "Asellus+aquaticus",
         Event.get (BASE_URL ++ "efetch.fcgi") "92243"] := by
  decide

theorem make_req_events_no_retry {α : Type} (net : Nat → Attempt α) (url query : String)
    (h : net 0 ≠ .httpError) :
    (make_req net url query).1 = [Event.get url query] := by
  cases hn : net 0 with
  | success v => rw [make_req, make_req_go_success hn]
  | httpError => exact absurd hn h
  | connError => rw [make_req, make_req_go_conn hn]

/-- C6 amended: `species_to_dict` inserts no delay between the lookup and the
fetch.  Whenever no attempt meets an HTTP-status failure (so `make_req` never
reaches its retry pause — the only `time.sleep` in the script), the whole
trace of `species_to_dict` contains no sleep event at all. -/
theorem species_to_dict_no_throttle (remote : Remote) (species : String)
    (hs : ∀ s i, remote.search s i ≠ .httpError)
    (hf : ∀ t i, remote.fetch t i ≠ .httpError) :
    ∀ d, Event.sleep d ∉ (species_to_dict remote species).1 := by
  intro d
  have hs1 : (esearch_req remote species).1 = [Event.get (BASE_URL ++ "esearch.fcgi") species] :=
    make_req_events_no_retry _ _ _ (hs species 0)
  have hid : (species_to_id remote species).1 = (esearch_req remote species).1 := by
    rcases h : esearch_req remote species with ⟨tr, r⟩
    cases r <;> simp [species_to_id, h]
  rcases h1 : species_to_id remote species with ⟨tr1, r1⟩
  have htr1 : tr1 = [Event.get (BASE_URL ++ "esearch.fcgi") species] := by
    have h' := hid.trans hs1
    rw [h1] at h'
    exact h'
  cases r1 with
  | error e => simp [species_to_dict, h1, htr1]
  | ok taxid =>
    have hf1 : (etree_from_id remote taxid).1
        = [Event.get (BASE_URL ++ "efetch.fcgi") (toString taxid)] :=
      make_req_events_no_retry _ _ _ (hf taxid 0)
    rcases h2 : etree_from_id remote taxid with ⟨tr2, r2⟩
    have htr2 : tr2 = [Event.get (BASE_URL ++ "efetch.fcgi") (toString taxid)] := by
      rw [h2] at hf1
      exact hf1
    cases r2 with
    | error e => simp [species_to_dict, h1, h2, htr1, htr2]
    | ok root =>
      cases h3 : etree_to_dict root <;>
        simp [species_to_dict, h1, h2, h3, htr1, htr2]

/-- Witness for C6's amended statement at `goodRemote`: no 1-second sleep
occurs anywhere in the successful resolution. -/
theorem species_to_dict_no_throttle_witness :
    Event.sleep 1 ∉ (species_to_dict goodRemote "Asellus+aquaticus").1 :=
  species_to_dict_no_throttle goodRemote "Asellus+aquaticus"
    (fun _ _ h => Attempt.noConfusion h) (fun _ _ h => Attempt.noConfusion h) 1

/-! ## Cache merger (`get_taxon_data` lines 228-283, `handle_typo` lines
300-306)

The JSON cache is a PYTHON dict keyed by directory name; dicts preserve
insertion order, so it is modelled as an association list: assignment replaces
an existing key's value in place or appends a new key at the end. -/

/-- PYTHON `d[k] = v`. -/
def dictSet {α : Type} : List (String × α) → String → α → List (String × α)
  | [], k, v => [(k, v)]
  | (a, b) :: rest, k, v =>
    if a = k then (a, v) :: rest else (a, b) :: dictSet rest k v

/-- PYTHON `d.get(k)`. -/
def dictGet {α : Type} : List (String × α) → String → Option α
  | [], _ => none
  | (a, b) :: rest, k => if a = k then some b else dictGet rest k

/-- PYTHON `k in d`. -/
def dictHasKey {α : Type} (d : List (String × α)) (k : String) : Bool :=
  (dictGet d k).isSome

/-- First-occurrence deduplication.  PYTHON `set(...)` iterates in a
hash-table order that depends on the interpreter's string-hash seed; the
embedding fixes one concrete enumeration (first occurrence in the input list)
— the source applies no ordering of its own on top of whatever the set
yields. -/
def dedupFirst (seen : List String) : List String → List String
  | [] => []
  | x :: rest =>
    if x ∈ seen then dedupFirst seen rest else x :: dedupFirst (x :: seen) rest

/-- PYTHON `set(get_names_from_dataset(DATA_PATH))` as an enumeration. -/
def pySet (l : List String) : List String := dedupFirst [] l

/-- Line 255: `directory_names.difference(taxon_data.keys())`, as the
enumeration the batch loop then iterates. -/
def new_directory_order (taxon_data : List (String × TaxonInfo))
    (directory_names : List String) : List String :=
  (pySet directory_names).filter (fun d => !dictHasKey taxon_data d)

/-- The observable result of one `get_taxon_data` run: the in-memory cache and
failure list when the loop stops, the trace of network actions, and — when a
non-`ValueError` exception escaped the loop — that exception.  The final
`json.dump` (line 277-278) runs exactly when `uncaught = none`; an uncaught
exception propagates out of `get_taxon_data` before the dump, leaving the
cache file untouched. -/
structure BatchOutcome where
  taxon_data : List (String × TaxonInfo)
  failed_to_retrieve : List String
  events : List Event
  uncaught : Option PyExc
deriving DecidableEq, Repr

/-- The `for dir_name in progress_bar` loop of lines 262-274: resolve
`preprocess_name dir_name` through the client; on success store the result
under the original directory name; on a `ValueError` record the name in
`failed_to_retrieve` and continue; any other exception propagates, ending the
run. -/
def run_batch (remote : Remote) (names : List String)
    (data : List (String × TaxonInfo)) (failed : List String)
    (evs : List Event) : BatchOutcome :=
  match names with
  | [] => ⟨data, failed, evs, none⟩
  | dir_name :: rest =>
    match species_to_dict remote (preprocess_name dir_name) with
    | (tr, .ok taxon_dict) =>
      run_batch remote rest (dictSet data dir_name taxon_dict) failed (evs ++ tr)
    | (tr, .error e) =>
      if isValueError e then run_batch remote rest data (failed ++ [dir_name]) (evs ++ tr)
      else ⟨data, failed, evs ++ tr, some e⟩

/-- `get_taxon_data` (lines 228-283): load the stored cache (a parameter here),
iterate the set difference, and finish.  The directory scan
(`get_names_from_dataset`) is file-system plumbing and enters as the
`directory_names` parameter. -/
def get_taxon_data (remote : Remote) (stored : List (String × TaxonInfo))
    (directory_names : List String) : BatchOutcome :=
  run_batch remote (new_directory_order stored directory_names) stored [] []

/-- `handle_typo` (lines 300-306): resolve the corrected name through the
normalizer+client pipeline (an exception propagates before anything is
written), then store the result under the original directory name and persist.
`stored` is the cache `dict_from_path` loads. -/
def handle_typo (remote : Remote) (original corrected : String)
    (stored : List (String × TaxonInfo)) :
    Except PyExc (List (String × TaxonInfo)) :=
  match species_to_dict remote (preprocess_name corrected) with
  | (_, .error e) => .error e
  | (_, .ok taxon_dict) => .ok (dictSet stored original taxon_dict)

theorem run_batch_nil (remote : Remote) (data : List (String × TaxonInfo))
    (failed : List String) (evs : List Event) :
    run_batch remote [] data failed evs = ⟨data, failed, evs, none⟩ := rfl

theorem run_batch_cons_ok {remote : Remote} {dir_name : String} {tr : List Event}
    {taxon_dict : TaxonInfo}
    (h : species_to_dict remote (preprocess_name dir_name) = (tr, .ok taxon_dict))
    (rest : List String) (data : List (String × TaxonInfo)) (failed : List String)
    (evs : List Event) :
    run_batch remote (dir_name :: rest) data failed evs
      = run_batch remote rest (dictSet data dir_name taxon_dict) failed (evs ++ tr) := by
  rw [run_batch, h]

theorem run_batch_cons_ve {remote : Remote} {dir_name : String} {tr : List Event}
    {e : PyExc}
    (h : species_to_dict remote (preprocess_name dir_name) = (tr, .error e))
    (hve : isValueError e = true)
    (rest : List String) (data : List (String × TaxonInfo)) (failed : List String)
    (evs : List Event) :
    run_batch remote (dir_name :: rest) data failed evs
      = run_batch remote rest data (failed ++ [dir_name]) (evs ++ tr) := by
  rw [run_batch, h]
  simp [hve]

theorem run_batch_cons_uncaught {remote : Remote} {dir_name : String} {tr : List Event}
    {e : PyExc}
    (h : species_to_dict remote (preprocess_name dir_name) = (tr, .error e))
    (hve : isValueError e = false)
    (rest : List String) (data : List (String × TaxonInfo)) (failed : List String)
    (evs : List Event) :
    run_batch remote (dir_name :: rest) data failed evs
      = ⟨data, failed, evs ++ tr, some e⟩ := by
  rw [run_batch, h]
  simp [hve]

/-- A remote that fails every attempt of every request with a non-2xx
status. -/
def failRemote : Remote := ⟨fun _ _ => .httpError, fun _ _ => .httpError⟩

/-- A remote whose search always succeeds with an empty id list (so every
resolution raises the not-found `ValueError`); the fetch side is never
reached. -/
def emptyRemote : Remote := ⟨fun _ _ => .success [], fun _ _ => .httpError⟩

/-- Whether the resolution pipeline succeeds for a directory name. -/
def resolveOk (remote : Remote) (dir_name : String) : Bool :=
  match (species_to_dict remote (preprocess_name dir_name)).2 with
  | .ok _ => true
  | .error _ => false

/-- C1 counterexample: for a directory whose lookup fails with a non-2xx
status on all 4 attempts, the `requests.HTTPError` re-raised by `make_req` is
not a `ValueError`, so the `except ValueError` at line 272 does not catch it:
the batch stops with the exception propagating (so the `json.dump` at line 277
never runs) and the name is not recorded in `failed_to_retrieve`.  This
falsifies the claim that any failure — a transport error that exhausted its
retries included — is caught per-name. -/
theorem get_taxon_data_transport_aborts_cex :
    (get_taxon_data failRemote [] ["Aname"]).uncaught = some PyExc.httpError
    ∧ (get_taxon_data failRemote [] ["Aname"]).failed_to_retrieve = [] := by
  decide

theorem run_batch_value_errors (remote : Remote) (names : List String) :
    ∀ data failed evs,
      (∀ d ∈ names, ∀ e, (species_to_dict remote (preprocess_name d)).2 = .error e →
        isValueError e = true) →
      (run_batch remote names data failed evs).uncaught = none
      ∧ (run_batch remote names data failed evs).failed_to_retrieve
          = failed ++ names.filter (fun d => !resolveOk remote d) := by
  induction names with
  | nil => intro data failed evs _; simp [run_batch_nil]
  | cons d rest ih =>
    intro data failed evs h
    rcases hsd : species_to_dict remote (preprocess_name d) with ⟨tr, r⟩
    cases r with
    | ok ti =>
      rw [run_batch_cons_ok hsd]
      have hr : resolveOk remote d = true := by simp [resolveOk, hsd]
      obtain ⟨h1, h2⟩ := ih (dictSet data d ti) failed (evs ++ tr)
        (fun u hu e he => h u (by simp [hu]) e he)
      exact ⟨h1, by rw [h2]; simp [List.filter_cons, hr]⟩
    | error e =>
      have hve : isValueError e = true := h d (by simp) e (by rw [hsd])
      rw [run_batch_cons_ve hsd hve]
      have hr : resolveOk remote d = false := by simp [resolveOk, hsd]
      obtain ⟨h1, h2⟩ := ih data (failed ++ [d]) (evs ++ tr)
        (fun u hu e he => h u (by simp [hu]) e he)
      refine ⟨h1, ?_⟩
      rw [h2]
      simp [List.filter_cons, hr]

/-- C1 amended: the per-name isolation holds exactly for `ValueError` failures
(not-found / ambiguous / malformed id list, or a malformed record integer):
when every failure among the new names is a `ValueError`, the batch runs to
completion (so the cache is persisted), records precisely the failing names in
`failed_to_retrieve`, and continues past each of them.  A transport failure —
an `HTTPError` that exhausted its retries, or any connectivity/timeout error —
is not caught and aborts the batch without persisting (see the
counterexample). -/
theorem get_taxon_data_per_name_isolation (remote : Remote)
    (stored : List (String × TaxonInfo)) (dirs : List String)
    (h : ∀ d ∈ new_directory_order stored dirs, ∀ e,
      (species_to_dict remote (preprocess_name d)).2 = .error e → isValueError e = true) :
    (get_taxon_data remote stored dirs).uncaught = none
    ∧ (get_taxon_data remote stored dirs).failed_to_retrieve
        = (new_directory_order stored dirs).filter (fun d => !resolveOk remote d) := by
  have := run_batch_value_errors remote (new_directory_order stored dirs) stored [] [] h
  simpa [get_taxon_data] using this

/-- Witness for C1's amended statement: a batch over one name whose lookup
returns an empty id list completes with the cache persisted and that name in
the failed list. -/
theorem get_taxon_data_per_name_isolation_witness :
    (get_taxon_data emptyRemote [] ["X"]).uncaught = none
    ∧ (get_taxon_data emptyRemote [] ["X"]).failed_to_retrieve
        = (new_directory_order [] ["X"]).filter (fun d => !resolveOk emptyRemote d) :=
  get_taxon_data_per_name_isolation emptyRemote [] ["X"] (by
    intro d hd e he
    have hdx : d = "X" := by
      simpa [new_directory_order, pySet, dedupFirst, dictHasKey, dictGet] using hd
    subst hdx
    have hX : (species_to_dict emptyRemote (preprocess_name "X")).2
        = Except.error PyExc.valueErrorEmpty := rfl
    rw [hX] at he
    injection he with he'
    subst he'
    rfl)

/-! ## Processing order (C9) -/

theorem species_to_dict_emptyRemote (s : String) :
    species_to_dict emptyRemote s
      = ([Event.get (BASE_URL ++ "esearch.fcgi") s], .error .valueErrorEmpty) := rfl

theorem run_batch_emptyRemote_events (names : List String) :
    ∀ data failed evs,
      (run_batch emptyRemote names data failed evs).events
        = evs ++ names.map
            (fun d => Event.get (BASE_URL ++ "esearch.fcgi") (preprocess_name d)) := by
  induction names with
  | nil => intro data failed evs; simp [run_batch_nil]
  | cons d rest ih =>
    intro data failed evs
    rw [run_batch_cons_ve (species_to_dict_emptyRemote (preprocess_name d)) rfl]
    rw [ih]
    simp

/-- C9 amended: the batch attempts the new names exactly in the iteration
order of the set difference — whatever enumeration the Python set yields (that
order is a hash-table artifact, randomized across interpreter runs for
strings) — and no lexicographic sort is applied anywhere.  Stated for the
always-not-found remote, where each name costs exactly one lookup GET: the GET
sequence is the `new_directory_order` enumeration mapped to queries, unsorted
(see the counterexample). -/
theorem get_taxon_data_set_order (stored : List (String × TaxonInfo))
    (dirs : List String) :
    (get_taxon_data emptyRemote stored dirs).events
      = (new_directory_order stored dirs).map
          (fun d => Event.get (BASE_URL ++ "esearch.fcgi") (preprocess_name d)) := by
  have := run_batch_emptyRemote_events (new_directory_order stored dirs) stored [] []
  simpa [get_taxon_data] using this

/-- C9 counterexample: directories enumerated as `["b", "a"]` by the set are
processed `"b"` first even though `"a" < "b"` — the loop at line 263 iterates
the set directly and never sorts, falsifying the claim of lexicographically
sorted processing. -/
theorem get_taxon_data_not_sorted_cex :
    (get_taxon_data emptyRemote [] ["b", "a"]).events
      = [Event.get (BASE_URL ++ "esearch.fcgi") "b",
         Event.get (BASE_URL ++ "esearch.fcgi") "a"]
    ∧ (get_taxon_data emptyRemote [] ["b", "a"]).events
      ≠ [Event.get (BASE_URL ++ "esearch.fcgi") "a",
         Event.get (BASE_URL ++ "esearch.fcgi") "b"] := by
  exact ⟨rfl, by decide⟩

/-! ## Single-entry repair (C8) -/

theorem dictGet_dictSet {α : Type} (d : List (String × α)) (k q : String) (v : α) :
    dictGet (dictSet d k v) q = if k = q then some v else dictGet d q := by
  induction d with
  | nil => by_cases h : k = q <;> simp [dictSet, dictGet, h]
  | cons hd tl ih =>
    obtain ⟨a, b⟩ := hd
    by_cases hak : a = k
    · subst hak
      by_cases haq : a = q <;> simp [dictSet, dictGet, haq]
    · by_cases haq : a = q
      · subst haq
        have hkq : ¬k = a := fun he => hak he.symm
        simp [dictSet, dictGet, hak, hkq]
      · simp [dictSet, dictGet, hak, haq, ih]

theorem dictSet_filter_ne {α : Type} (d : List (String × α)) (k : String) (v : α) :
    (dictSet d k v).filter (fun p => p.1 != k) = d.filter (fun p => p.1 != k) := by
  induction d with
  | nil => simp [dictSet, List.filter_cons]
  | cons hd tl ih =>
    obtain ⟨a, b⟩ := hd
    by_cases hak : a = k
    · subst hak
      simp [dictSet, List.filter_cons]
    · simp [dictSet, hak, List.filter_cons, ih]

/-- C8: when resolving the corrected name succeeds, `handle_typo` stores the
result under the original directory-name key (overwriting it if present,
appending it otherwise) and persists; the entry under the original key is the
resolved record, every other key reads back unchanged, and the association
list restricted to the other keys — their order, keys and values, hence their
serialized bytes — is identical. -/
theorem handle_typo_frame (remote : Remote) (original corrected : String)
    (stored : List (String × TaxonInfo)) (ti : TaxonInfo)
    (h : (species_to_dict remote (preprocess_name corrected)).2 = .ok ti) :
    handle_typo remote original corrected stored = .ok (dictSet stored original ti)
    ∧ dictGet (dictSet stored original ti) original = some ti
    ∧ (∀ k, k ≠ original → dictGet (dictSet stored original ti) k = dictGet stored k)
    ∧ (dictSet stored original ti).filter (fun p => p.1 != original)
        = stored.filter (fun p => p.1 != original) := by
  refine ⟨?_, ?_, ?_, dictSet_filter_ne stored original ti⟩
  · rcases hp : species_to_dict remote (preprocess_name corrected) with ⟨tr, r⟩
    rw [hp] at h
    cases r with
    | error e => simp at h
    | ok t =>
      simp at h
      subst h
      simp [handle_typo, hp]
  · rw [dictGet_dictSet]
    simp
  · intro k hk
    rw [dictGet_dictSet, if_neg (fun he : original = k => hk he.symm)]

/-- A pre-existing cache entry under an unrelated key. -/
def sampleTi : TaxonInfo := ⟨"species", "Placeholder", 1, []⟩

/-- The record `goodRemote` resolves (the parse of `sampleRoot`). -/
def asellusTi : TaxonInfo :=
  ⟨"species", "Asellus aquaticus", 92243,
   [("genus", [⟨"Asellus", 92242⟩]),
    ("clade", [⟨"Heterochelida", 1⟩, ⟨"Asellota", 2⟩])]⟩

/-- Witness for C8 at a concrete repair: fixing key `"Asellus_sp"` via the
corrected name `"Abc"` leaves the unrelated key `"Other"` reading back
unchanged. -/
theorem handle_typo_frame_witness :
    handle_typo goodRemote "Asellus_sp" "Abc" [("Other", sampleTi)]
      = .ok (dictSet [("Other", sampleTi)] "Asellus_sp" asellusTi)
    ∧ dictGet (dictSet [("Other", sampleTi)] "Asellus_sp" asellusTi) "Other"
      = dictGet [("Other", sampleTi)] "Other" := by
  have h := handle_typo_frame goodRemote "Asellus_sp" "Abc" [("Other", sampleTi)]
    asellusTi (by decide)
  exact ⟨h.1, h.2.2.1 "Other" (by decide)⟩

/-! ## Cache discipline (C7) -/

theorem run_batch_frame (remote : Remote) (names : List String) :
    ∀ data failed evs k, k ∉ names →
      dictGet (run_batch remote names data failed evs).taxon_data k = dictGet data k := by
  induction names with
  | nil => intro data failed evs k _; simp [run_batch_nil]
  | cons d rest ih =>
    intro data failed evs k hk
    have hkd : k ≠ d := fun he => hk (by simp [he])
    have hkr : k ∉ rest := fun hr => hk (by simp [hr])
    rcases hsd : species_to_dict remote (preprocess_name d) with ⟨tr, r⟩
    cases r with
    | ok ti =>
      rw [run_batch_cons_ok hsd, ih _ _ _ _ hkr, dictGet_dictSet,
        if_neg (fun he : d = k => hkd he.symm)]
    | error e =>
      by_cases hve : isValueError e = true
      · rw [run_batch_cons_ve hsd hve]
        exact ih _ _ _ _ hkr
      · rw [run_batch_cons_uncaught hsd (by simpa using hve)]

theorem run_batch_keeps_keys (remote : Remote) (names : List String) :
    ∀ data failed evs k, dictHasKey data k = true →
      dictHasKey (run_batch remote names data failed evs).taxon_data k = true := by
  induction names with
  | nil => intro data failed evs k h; simpa [run_batch_nil] using h
  | cons d rest ih =>
    intro data failed evs k h
    rcases hsd : species_to_dict remote (preprocess_name d) with ⟨tr, r⟩
    cases r with
    | ok ti =>
      rw [run_batch_cons_ok hsd]
      apply ih
      by_cases hdk : d = k
      · simp [dictHasKey, dictGet_dictSet, hdk]
      · simpa [dictHasKey, dictGet_dictSet, hdk] using h
    | error e =>
      by_cases hve : isValueError e = true
      · rw [run_batch_cons_ve hsd hve]
        exact ih _ _ _ _ h
      · rw [run_batch_cons_uncaught hsd (by simpa using hve)]
        exact h

theorem run_batch_failed_extends (remote : Remote) (names : List String) :
    ∀ data failed evs, ∃ ext,
      (run_batch remote names data failed evs).failed_to_retrieve = failed ++ ext := by
  induction names with
  | nil => intro data failed evs; exact ⟨[], by simp [run_batch_nil]⟩
  | cons d rest ih =>
    intro data failed evs
    rcases hsd : species_to_dict remote (preprocess_name d) with ⟨tr, r⟩
    cases r with
    | ok ti =>
      rw [run_batch_cons_ok hsd]
      exact ih _ _ _
    | error e =>
      by_cases hve : isValueError e = true
      · rw [run_batch_cons_ve hsd hve]
        obtain ⟨ext, hext⟩ := ih data (failed ++ [d]) (evs ++ tr)
        exact ⟨d :: ext, by rw [hext]; simp⟩
      · rw [run_batch_cons_uncaught hsd (by simpa using hve)]
        exact ⟨[], by simp⟩

theorem run_batch_success_keys (remote : Remote) (names : List String) :
    ∀ data failed evs,
      (run_batch remote names data failed evs).uncaught = none →
      (run_batch remote names data failed evs).failed_to_retrieve = failed →
      ∀ n ∈ names, dictHasKey (run_batch remote names data failed evs).taxon_data n = true := by
  induction names with
  | nil => intro data failed evs _ _ n hn; simp at hn
  | cons d rest ih =>
    intro data failed evs hu hf n hn
    rcases hsd : species_to_dict remote (preprocess_name d) with ⟨tr, r⟩
    cases r with
    | ok ti =>
      rw [run_batch_cons_ok hsd] at hu hf ⊢
      rcases List.mem_cons.mp hn with rfl | hnr
      · apply run_batch_keeps_keys
        simp [dictHasKey, dictGet_dictSet]
      · exact ih _ _ _ hu hf n hnr
    | error e =>
      by_cases hve : isValueError e = true
      · rw [run_batch_cons_ve hsd hve] at hf
        obtain ⟨ext, hext⟩ :=
          run_batch_failed_extends remote rest data (failed ++ [d]) (evs ++ tr)
        rw [hext] at hf
        exfalso
        have hlen := congrArg List.length hf
        simp only [List.length_append, List.length_cons, List.length_nil] at hlen
        omega
      · rw [run_batch_cons_uncaught hsd (by simpa using hve)] at hu
        simp at hu

theorem mem_dedupFirst (x : String) : ∀ (l seen : List String),
    x ∈ dedupFirst seen l ↔ (x ∈ l ∧ x ∉ seen) := by
  intro l
  induction l with
  | nil => intro seen; simp [dedupFirst]
  | cons y rest ih =>
    intro seen
    by_cases hy : y ∈ seen
    · rw [show dedupFirst seen (y :: rest) = dedupFirst seen rest
          from by simp [dedupFirst, hy]]
      rw [ih seen]
      constructor
      · rintro ⟨h1, h2⟩
        exact ⟨by simp [h1], h2⟩
      · rintro ⟨h1, h2⟩
        rcases List.mem_cons.mp h1 with rfl | h1r
        · exact absurd hy h2
        · exact ⟨h1r, h2⟩
    · rw [show dedupFirst seen (y :: rest) = y :: dedupFirst (y :: seen) rest
          from by simp [dedupFirst, hy]]
      constructor
      · intro hx
        rcases List.mem_cons.mp hx with rfl | hxr
        · exact ⟨by simp, hy⟩
        · obtain ⟨h1, h2⟩ := (ih (y :: seen)).mp hxr
          refine ⟨by simp [h1], fun hs => h2 (by simp [List.mem_cons]; right; exact hs)⟩
      · rintro ⟨h1, h2⟩
        rcases List.mem_cons.mp h1 with rfl | h1r
        · simp
        · by_cases hxy : x = y
          · simp [hxy]
          · refine List.mem_cons_of_mem _ ((ih (y :: seen)).mpr ⟨h1r, ?_⟩)
            simp only [List.mem_cons]
            rintro (he | hs)
            · exact hxy he
            · exact h2 hs

theorem mem_new_directory_order (stored : List (String × TaxonInfo)) (dirs : List String)
    (d : String) :
    d ∈ new_directory_order stored dirs ↔ d ∈ dirs ∧ dictHasKey stored d = false := by
  constructor
  · intro h
    obtain ⟨h1, h2⟩ := List.mem_filter.mp h
    exact ⟨((mem_dedupFirst d dirs []).mp h1).1, by simpa using h2⟩
  · rintro ⟨h1, h2⟩
    exact List.mem_filter.mpr ⟨(mem_dedupFirst d dirs []).mpr ⟨h1, by simp⟩, by simp [h2]⟩

/-- C7 amended: the batch resolves only the set difference.  An entry whose
key is already cached reads back unchanged after the run; when every directory
is already cached the run does nothing at all — no remote call, no change, no
failure; and a second run on the first run's output performs zero remote calls
provided the first run completed with an empty failure list.  The proviso is
forced: a name whose resolution failed is recorded in `failed_to_retrieve` but
not cached, so the next run retries it (see the counterexample). -/
theorem get_taxon_data_cache_discipline (remote : Remote)
    (stored : List (String × TaxonInfo)) (dirs : List String) :
    (∀ k, dictHasKey stored k = true →
      dictGet (get_taxon_data remote stored dirs).taxon_data k = dictGet stored k)
    ∧ ((∀ d ∈ dirs, dictHasKey stored d = true) →
      get_taxon_data remote stored dirs = ⟨stored, [], [], none⟩)
    ∧ ((get_taxon_data remote stored dirs).uncaught = none →
      (get_taxon_data remote stored dirs).failed_to_retrieve = [] →
      (get_taxon_data remote (get_taxon_data remote stored dirs).taxon_data dirs).events
        = []) := by
  refine ⟨?_, ?_, ?_⟩
  · intro k hk
    simp only [get_taxon_data]
    apply run_batch_frame
    intro hmem
    have hm := ((mem_new_directory_order stored dirs k).mp hmem).2
    rw [hk] at hm
    exact Bool.noConfusion hm
  · intro h
    have hempty : new_directory_order stored dirs = [] := by
      apply List.filter_eq_nil_iff.mpr
      intro a ha
      have hadirs : a ∈ dirs := ((mem_dedupFirst a dirs []).mp ha).1
      simp [h a hadirs]
    rw [get_taxon_data, hempty, run_batch_nil]
  · intro hu hf
    simp only [get_taxon_data] at hu hf ⊢
    have hkeys : ∀ d ∈ dirs,
        dictHasKey (run_batch remote (new_directory_order stored dirs)
          stored [] []).taxon_data d = true := by
      intro d hd
      by_cases hs : dictHasKey stored d = true
      · exact run_batch_keeps_keys remote _ stored [] [] d hs
      · have hmem : d ∈ new_directory_order stored dirs :=
          (mem_new_directory_order stored dirs d).mpr ⟨hd, by simpa using hs⟩
        exact run_batch_success_keys remote _ stored [] [] hu hf d hmem
    have hempty : new_directory_order
        (run_batch remote (new_directory_order stored dirs) stored [] []).taxon_data dirs
          = [] := by
      apply List.filter_eq_nil_iff.mpr
      intro a ha
      have hadirs : a ∈ dirs := ((mem_dedupFirst a dirs []).mp ha).1
      simp [hkeys a hadirs]
    rw [hempty, run_batch_nil]

/-- Witness for C7's amended statement: an already fully cached directory set
produces no remote call and leaves the cache identical, even against a remote
that would fail every request. -/
theorem get_taxon_data_cache_discipline_witness :
    get_taxon_data failRemote [("A", sampleTi)] ["A"]
      = ⟨[("A", sampleTi)], [], [], none⟩ :=
  (get_taxon_data_cache_discipline failRemote [("A", sampleTi)] ["A"]).2.1 (by decide)

/-- C7 counterexample: a name whose lookup finds no id fails on the first run
and is not cached, so the second run over the unchanged directory set issues a
remote call again.  This falsifies the unconditional claim that a second run
with no new directories performs zero remote calls. -/
theorem get_taxon_data_rerun_calls_cex :
    (get_taxon_data emptyRemote
        (get_taxon_data emptyRemote [] ["X"]).taxon_data ["X"]).events
      = [Event.get (BASE_URL ++ "esearch.fcgi") "X"] := by
  decide

end Taxonomy
